import Mathlib

/-!
Shallow embedding of the gameplot dashboard's shared filtering, aggregation
and statistics engine (filters.js, statistics.js, playtimeAggregationChart.js,
the boxplot module) together with theorems checking the specification's
claims about it.

Modelling conventions:
* JS numbers that the engine treats as data are rationals (`ℚ`); a field that
  a record may lack (JS `undefined`), or whose value may fail numeric
  coercion, is an `Option`.
* A JS `TypeError` raised inside per-record evaluation is modelled with
  `Except Unit`: `.error ()` is the thrown exception.
* `Date.parse` results are modelled as epoch timestamps in seconds
  (`secondsOfYmd` converts a calendar date exactly as
  `new Date("YYYY-MM-DD")` does); an unparseable date is `none`.
* `Array.prototype.sort` (stable, comparator-driven in ECMAScript) is
  modelled with `List.insertionSort`, which is also stable; for a total
  preorder comparator the stable sort is unique, so the two agree.
-/

/-- Days since the Unix epoch of a proleptic-Gregorian date (the classic
`days_from_civil` algorithm); `Date.parse("YYYY-MM-DD")` yields exactly
`86400 * daysOfYmd y m d` seconds. -/
def daysOfYmd (y : ℤ) (m d : ℕ) : ℤ :=
  let y' : ℤ := if m ≤ 2 then y - 1 else y
  let era : ℤ := (if 0 ≤ y' then y' else y' - 399) / 400
  let yoe : ℤ := y' - era * 400
  let mp : ℤ := ((m : ℤ) + 9) % 12
  let doy : ℤ := (153 * mp + 2) / 5 + (d : ℤ) - 1
  let doe : ℤ := yoe * 365 + yoe / 4 - yoe / 100 + doy
  era * 146097 + doe - 719468

/-- Epoch timestamp (seconds) of midnight UTC on a calendar date, as
`new Date("YYYY-MM-DD").getTime() / 1000` computes it. -/
def secondsOfYmd (y : ℤ) (m d : ℕ) : ℤ :=
  86400 * daysOfYmd y m d

/-- A game record as the dashboard modules consume it (dataLoader.js merges
the raw JSON into objects with these fields).  `platforms`/`tags` are `none`
when the record lacks the array entirely; `rating` is `none` when the game
has no rating; `lastPlayed` is the parsed timestamp of `lastPlayedTotal`
(`none` when the string is absent or unparseable, i.e. `new Date(...)` is an
Invalid Date); `hoursPlayedTotal` is `none` when absent or not numerically
coercible (`parseFloat` gives `NaN`); `hoursPlayedSingle` is the per-platform
hours array parallel to `platforms`, with `none` entries for values that fail
numeric coercion. -/
structure Record where
  game : String
  platforms : Option (List String)
  tags : Option (List String)
  status : Option String
  rating : Option ℚ
  lastPlayed : Option ℤ
  hoursPlayedTotal : Option ℚ
  hoursPlayedSingle : Option (List (Option ℚ))
  deriving Repr, DecidableEq

/-- The filter selection state that getFilteredData reads from the checkbox
groups and the two date inputs: the checked values per facet, plus the parsed
`startDate`/`endDate` timestamps (midnight of the chosen days). -/
structure Selection where
  platforms : List String
  tags : List String
  statuses : List String
  ratingRanges : List String
  startDate : ℤ
  endDate : ℤ
  deriving Repr, DecidableEq

/-- filters.js `getRatingRange`: maps a rating to its bucket label, `none`
(JS `null`) when the rating is absent. -/
def getRatingRange (rating : Option ℚ) : Option String :=
  match rating with
  | none => none
  | some r =>
    if 9 ≤ r then some "9-10"
    else if 8 ≤ r then some "8-9"
    else if 7 ≤ r then some "7-8"
    else if 6 ≤ r then some "6-7"
    else if 5 ≤ r then some "5-6"
    else some "<5"

/-- The `platformMatch` line of getFilteredData's per-record predicate:
`selectedPlatforms.length === 0 || d.platforms.some(p => selectedPlatforms.includes(p))`.
When the selection is non-empty and the record has no `platforms` array, the
`.some` call dereferences `undefined` and throws. -/
def platformMatch (sel : Selection) (r : Record) : Except Unit Bool :=
  if sel.platforms.isEmpty then .ok true
  else
    match r.platforms with
    | none => .error ()
    | some ps => .ok (ps.any (fun p => sel.platforms.contains p))

/-- The `tagMatch` line of getFilteredData's per-record predicate:
`selectedTags.length === 0 || d.tags.some(t => selectedTags.includes(t))`. -/
def tagMatch (sel : Selection) (r : Record) : Except Unit Bool :=
  if sel.tags.isEmpty then .ok true
  else
    match r.tags with
    | none => .error ()
    | some ts => .ok (ts.any (fun t => sel.tags.contains t))

/-- The `statusMatch` line: `selectedStatuses.includes(d.status)`.  The raw
status value is compared against the selected strings; an absent status (JS
`undefined`) is never equal to any selected string, so it fails. -/
def statusMatch (sel : Selection) (r : Record) : Bool :=
  match r.status with
  | some s => sel.statuses.contains s
  | none => false

/-- The `ratingMatch` line: `selectedRatingRanges.length === 0 ||
selectedRatingRanges.includes(getRatingRange(d.rating))`; `includes(null)` is
false for a list of strings. -/
def ratingMatch (sel : Selection) (r : Record) : Bool :=
  sel.ratingRanges.isEmpty ||
    (match getRatingRange r.rating with
     | some range => sel.ratingRanges.contains range
     | none => false)

/-- The `dateMatch` line: `!isNaN(gameDate) && gameDate >= startDate &&
gameDate <= endDate` where `endDate.setHours(23, 59, 59)` has extended the
end date by 86399 seconds (23:59:59) to include the whole final day. -/
def dateMatch (sel : Selection) (r : Record) : Bool :=
  match r.lastPlayed with
  | none => false
  | some t => decide (sel.startDate ≤ t) && decide (t ≤ sel.endDate + 86399)

/-- The body of the `data.filter(d => ...)` callback in getFilteredData.  The
five facet lines are evaluated in source order (so a `TypeError` from the
platform line pre-empts one from the tag line) and their conjunction is
returned. -/
def recordMatch (sel : Selection) (r : Record) : Except Unit Bool := do
  let pm ← platformMatch sel r
  let tm ← tagMatch sel r
  pure (pm && tm && statusMatch sel r && ratingMatch sel r && dateMatch sel r)

/-- filters.js `getFilteredData`: keeps, in order, the records whose five
facet predicates all hold; a `TypeError` raised while evaluating any record
aborts the whole pass. -/
def getFilteredData (data : List Record) (sel : Selection) : Except Unit (List Record) :=
  match data with
  | [] => .ok []
  | r :: rest => do
    let keep ← recordMatch sel r
    let rest' ← getFilteredData rest sel
    pure (if keep then r :: rest' else rest')

/-- The status checkbox values created by filters.js `populateStatusFilters`:
`[...new Set(data.map(d => d.status))].sort()`.  The raw status values are
catalogued with no normalization; `Array.prototype.sort` places `undefined`
entries after all others, and the pre-sort order of `Set` insertion is
irrelevant after sorting. -/
def populateStatusCatalog (data : List Record) : List (Option String) :=
  let distinct := (data.map (·.status)).dedup
  ((distinct.filterMap id).insertionSort (· ≤ ·)).map some
    ++ (if none ∈ distinct then [none] else [])

/-! ### Playtime aggregation (playtimeAggregationChart.js) -/

/-- The four aggregation dimensions offered by the control buttons. -/
inductive AggregationType
  | platform
  | tag
  | status
  | rating
  deriving Repr, DecidableEq

/-- One entry of the `aggregation` object: `{category, totalHours, gameCount}`. -/
structure AggregationBucket where
  category : String
  totalHours : ℚ
  gameCount : ℕ
  deriving Repr, DecidableEq

/-- playtimeAggregationChart.js `getRatingRange`: unlike the filters.js
function of the same name, an absent rating maps to the `'No Rating'`
category. -/
def getRatingRangeAgg (rating : Option ℚ) : String :=
  match rating with
  | none => "No Rating"
  | some r =>
    if 9 ≤ r then "9-10"
    else if 8 ≤ r then "8-9"
    else if 7 ≤ r then "7-8"
    else if 6 ≤ r then "6-7"
    else if 5 ≤ r then "5-6"
    else "<5"

/-- The (category, hours) pairs one record feeds into the aggregation object,
mirroring the per-record body of `aggregatePlaytimeData`:
* `platform`: `(game.platforms || [])` zipped with indices; the hours are
  `parseFloat(hoursPerPlatform[index]) || 0` over `game.hoursPlayedSingle || []`
  (an out-of-range index reads `undefined`, and coercion failure defaults
  to 0);
* `tag`: every tag in `game.tags || []`, each with
  `parseFloat(game.hoursPlayedTotal) || 0`;
* `status`: the single category `game.status || 'Unknown'`;
* `rating`: the single category `getRatingRange(game.rating)`. -/
def contributions (ty : AggregationType) (g : Record) : List (String × ℚ) :=
  match ty with
  | .platform =>
    (g.platforms.getD []).enum.map
      (fun ip => (ip.2, ((g.hoursPlayedSingle.getD []).getD ip.1 none).getD 0))
  | .tag => (g.tags.getD []).map (fun t => (t, g.hoursPlayedTotal.getD 0))
  | .status => [(g.status.getD "Unknown", g.hoursPlayedTotal.getD 0)]
  | .rating => [(getRatingRangeAgg g.rating, g.hoursPlayedTotal.getD 0)]

/-- `aggregation[category].totalHours += hours; aggregation[category].gameCount += 1`,
creating the entry first when absent.  A JS object with non-numeric string
keys preserves insertion order, so the object is an association list with new
keys appended at the end. -/
def bump (buckets : List AggregationBucket) (cat : String) (hours : ℚ) :
    List AggregationBucket :=
  match buckets with
  | [] => [⟨cat, hours, 1⟩]
  | b :: rest =>
    if b.category = cat then ⟨b.category, b.totalHours + hours, b.gameCount + 1⟩ :: rest
    else b :: bump rest cat hours

/-- The fully accumulated `aggregation` object (in insertion order), before
the zero-hours filter: every record's contributions are folded in, in data
order. -/
def aggMap (data : List Record) (ty : AggregationType) : List AggregationBucket :=
  data.foldl (fun acc g => (contributions ty g).foldl (fun m p => bump m p.1 p.2) acc) []

/-- `aggregatePlaytimeData`: the accumulated buckets with zero-hours
categories dropped (`Object.values(aggregation).filter(d => d.totalHours > 0)`). -/
def aggregatePlaytimeData (data : List Record) (ty : AggregationType) :
    List AggregationBucket :=
  (aggMap data ty).filter (fun b => decide (0 < b.totalHours))

/-- The fixed category order used by `renderPlaytimeAggregation` for the
rating dimension. -/
def ratingOrder : List String :=
  ["9-10", "8-9", "7-8", "6-7", "5-6", "<5", "No Rating"]

/-- `ratingOrder.indexOf(category)`.  (JS yields -1 for a missing category
while `List.indexOf` yields the list length; every category the rating
aggregation produces occurs in `ratingOrder`, so the difference is
unreachable.) -/
def ratingOrderIndex (c : String) : ℕ :=
  ratingOrder.indexOf c

/-- The sort `renderPlaytimeAggregation` applies to the aggregated data:
for the rating dimension a stable sort by `ratingOrder` position
(`(a, b) => aIndex - bIndex`), otherwise a stable sort by descending
`totalHours` (`(a, b) => b.totalHours - a.totalHours`). -/
def sortAggregatedData (ty : AggregationType) (l : List AggregationBucket) :
    List AggregationBucket :=
  match ty with
  | .rating =>
    l.insertionSort (fun a b => ratingOrderIndex a.category ≤ ratingOrderIndex b.category)
  | _ => l.insertionSort (fun a b => b.totalHours ≤ a.totalHours)

/-- The bucket sequence `renderPlaytimeAggregation` hands to the bar layout:
aggregate, then sort for the chosen dimension. -/
def renderAggregationOrder (data : List Record) (ty : AggregationType) :
    List AggregationBucket :=
  sortAggregatedData ty (aggregatePlaytimeData data ty)

/-- `totalHours` of the aggregation object's entry for a category (0 when the
category has no entry). -/
def bucketTotal (buckets : List AggregationBucket) (c : String) : ℚ :=
  match buckets.find? (fun b => decide (b.category = c)) with
  | some b => b.totalHours
  | none => 0

/-- `gameCount` of the aggregation object's entry for a category (0 when the
category has no entry). -/
def bucketCount (buckets : List AggregationBucket) (c : String) : ℕ :=
  match buckets.find? (fun b => decide (b.category = c)) with
  | some b => b.gameCount
  | none => 0

/-- Specification-side per-record total: the sum of the hours the record
contributes to one category. -/
def categoryHours (ty : AggregationType) (c : String) (g : Record) : ℚ :=
  (((contributions ty g).filter (fun p => decide (p.1 = c))).map (·.2)).sum

/-- Specification-side per-record occurrence count for one category. -/
def categoryOcc (ty : AggregationType) (c : String) (g : Record) : ℕ :=
  (contributions ty g).countP (fun p => decide (p.1 = c))

/-- Specification-side dataset total for one category. -/
def categoryHoursSum (data : List Record) (ty : AggregationType) (c : String) : ℚ :=
  (data.map (categoryHours ty c)).sum

/-- Specification-side dataset occurrence count for one category. -/
def categoryOccSum (data : List Record) (ty : AggregationType) (c : String) : ℕ :=
  (data.map (categoryOcc ty c)).sum

/-! ### Summary statistics (statistics.js) -/

/-- `d3.mean(values)`: the arithmetic mean of the defined values, `undefined`
(here `none`) when no value is defined. -/
def d3Mean (values : List (Option ℚ)) : Option ℚ :=
  let present := values.filterMap id
  if present.isEmpty then none else some (present.sum / present.length)

/-- The `avgRating` computation of statistics.js `updateStats`:
`filteredData.length > 0 ? d3.mean(filteredData, d => d.rating).toFixed(1) : 0`.
The `.toFixed(1)` string formatting is elided (it never fails on a number);
`.error ()` marks the `TypeError` thrown when `d3.mean` returns `undefined`
(a non-empty input with no rated record) and `.toFixed` is called on it. -/
def updateStatsAvgRating (filteredData : List Record) : Except Unit ℚ :=
  if filteredData.length > 0 then
    match d3Mean (filteredData.map (·.rating)) with
    | some m => .ok m
    | none => .error ()
  else .ok 0

/-- The `totalHours` computation of `updateStats`:
`d3.sum(filteredData, d => d.hoursPlayedTotal)` (d3.sum ignores undefined
values and yields 0 on an empty input). -/
def updateStatsTotalHours (filteredData : List Record) : ℚ :=
  (filteredData.filterMap (·.hoursPlayedTotal)).sum

/-- The comparison `a.rating > b.rating` of the `topRated` reducer under JS
semantics: a `>` comparison involving `undefined` is false. -/
def jsGtRating (a b : Record) : Bool :=
  match a.rating, b.rating with
  | some x, some y => decide (x > y)
  | _, _ => false

/-- The `topRated` computation of `updateStats`:
`filteredData.length > 0 ? filteredData.reduce((a, b) => a.rating > b.rating ? a : b) : null`.
`reduce` without an initial value starts from the first element and folds the
rest in order. -/
def updateStatsTopRated (filteredData : List Record) : Option Record :=
  match filteredData with
  | [] => none
  | h :: t => some (t.foldl (fun a b => if jsGtRating a b then a else b) h)

/-! ### Boxplot statistics (boxplot module) -/

/-- The statistics object returned by `calculateBoxplotStats`. -/
structure BoxplotStats where
  q1 : ℚ
  median : ℚ
  q3 : ℚ
  min : ℚ
  max : ℚ
  outliers : List ℚ
  mean : ℚ
  count : ℕ
  deriving Repr, DecidableEq

/-- `values.slice().sort((a, b) => a - b)`: ascending numeric sort. -/
def jsSortAsc (values : List ℚ) : List ℚ :=
  values.insertionSort (· ≤ ·)

/-- `d3.min` over defined numeric values. -/
def d3Min (l : List ℚ) : Option ℚ :=
  l.min?

/-- `d3.max` over defined numeric values. -/
def d3Max (l : List ℚ) : Option ℚ :=
  l.max?

/-- `d3.quantile(values, p)` on an already-sorted array (the boxplot module
always sorts first): if the array is empty the result is `undefined`; if
`p <= 0` or there are fewer than two values the first value is returned; if
`p >= 1` the last; otherwise the rank is `h = (n - 1) * p` and the result
interpolates linearly between the adjacent order statistics
`values[floor(h)]` and `values[floor(h) + 1]`.  The `getD` defaults are
unreachable: `floor(h) + 1 <= n - 1` whenever `0 < p < 1`. -/
def quantileSorted (l : List ℚ) (p : ℚ) : Option ℚ :=
  match l with
  | [] => none
  | x :: _ =>
    if p ≤ 0 ∨ l.length < 2 then some x
    else if 1 ≤ p then some (l.getD (l.length - 1) 0)
    else
      let h : ℚ := ((l.length : ℚ) - 1) * p
      let i0 : ℕ := (⌊h⌋).toNat
      let v0 := l.getD i0 0
      let v1 := l.getD (i0 + 1) 0
      some (v0 + (v1 - v0) * (h - (i0 : ℚ)))

/-- The R-7 quantile estimate, stated from the specification's words: rank
`h = (n - 1) * p`, linear interpolation between the order statistics at
`floor(h)` and `floor(h) + 1` (the upper index clamped to the last element,
which only matters at integral ranks). -/
def r7quantile (sorted : List ℚ) (p : ℚ) : ℚ :=
  let n := sorted.length
  let h : ℚ := ((n : ℚ) - 1) * p
  let i0 : ℕ := (⌊h⌋).toNat
  let i1 : ℕ := Min.min (i0 + 1) (n - 1)
  let v0 := sorted.getD i0 0
  let v1 := sorted.getD i1 0
  v0 + (v1 - v0) * (h - (i0 : ℚ))

/-- `calculateBoxplotStats(values)`: `null` for an empty input, otherwise the
quartiles of the ascending-sorted values, the whiskers clamped to the data
extent by 1.5 IQR, the values strictly outside the whiskers as outliers, the
mean and the count.  (The `getD 0` defaults are unreachable for a non-empty
input.) -/
def calculateBoxplotStats (values : List ℚ) : Option BoxplotStats :=
  match values with
  | [] => none
  | _ :: _ =>
    let sorted := jsSortAsc values
    let q1 := (quantileSorted sorted (1/4)).getD 0
    let median := (quantileSorted sorted (1/2)).getD 0
    let q3 := (quantileSorted sorted (3/4)).getD 0
    let iqr := q3 - q1
    let mn := Max.max ((d3Min sorted).getD 0) (q1 - 3/2 * iqr)
    let mx := Min.min ((d3Max sorted).getD 0) (q3 + 3/2 * iqr)
    some
      { q1 := q1
        median := median
        q3 := q3
        min := mn
        max := mx
        outliers := sorted.filter (fun d => decide (d < mn) || decide (d > mx))
        mean := (d3Mean (values.map some)).getD 0
        count := values.length }

/-- One element of `renderBoxplot`'s `tagStats` array.  The full pushed object
is `{tag, stats, games}`; `ratings` records the exact value list handed to
`calculateBoxplotStats` (absent ratings included, as the source does not
filter them), and `count`/`mean` are the two stats fields the keep/sort logic
reads: `stats.count` is `ratings.length` and `stats.mean` is
`d3.mean(ratings)`, which skips undefined entries.  The remaining quartile
fields are only meaningful when every rating is present, in which case they
are `calculateBoxplotStats` applied to those values. -/
structure TagBoxplotEntry where
  tag : String
  ratings : List (Option ℚ)
  count : ℕ
  mean : Option ℚ
  deriving Repr, DecidableEq

/-- The `tagStats` list built and then sorted by `renderBoxplot`: for each
selected tag, the filtered records whose `tags` include it (records reaching
this point carry a tags array; a record without one would throw, cf. the
totality analysis of getFilteredData); a tag is pushed whenever
`calculateBoxplotStats` returned non-null and `stats.count >= 1`, i.e.
whenever at least one record matched — rated or not.  The final
`sort((a, b) => b.stats.mean - a.stats.mean)` is a stable descending sort by
mean; when a mean is `undefined` the JS comparator is NaN and the engine
order is unspecified, modelled here by comparing absent means as 0. -/
def tagStatsEntry (filteredData : List Record) (tag : String) : Option TagBoxplotEntry :=
  -- One iteration of the `selectedTags.forEach` loop: the tag's matching
  -- records, the rating list handed to calculateBoxplotStats, and the pushed
  -- entry; `none` when `calculateBoxplotStats` returned null (`stats.count >= 1`
  -- holds exactly when the value list is non-empty, rated or not).
  let tagGames := filteredData.filter (fun d => (d.tags.getD []).contains tag)
  let ratings := tagGames.map (·.rating)
  if ratings.isEmpty then none
  else some ⟨tag, ratings, ratings.length, d3Mean ratings⟩

def renderBoxplotEntries (filteredData : List Record) (selectedTags : List String) :
    List TagBoxplotEntry :=
  (selectedTags.filterMap (tagStatsEntry filteredData)).insertionSort
    (fun a b => b.mean.getD 0 ≤ a.mean.getD 0)

/-! ### Concrete records used by the examples and counterexamples -/

/-- Record A of the specification's end-to-end scenario (§8): rating 9.5,
50 hours, tag RPG, platform PC, status Completed, last played 2023-01-01. -/
def recA : Record :=
  { game := "A"
    platforms := some ["PC"]
    tags := some ["RPG"]
    status := some "Completed"
    rating := some (19/2)
    lastPlayed := some (secondsOfYmd 2023 1 1)
    hoursPlayedTotal := some 50
    hoursPlayedSingle := some [some 50] }

/-- Record B of the §8 scenario: rating 7.0, 10 hours, tag RPG, platform PC,
status Abandoned, last played 2023-06-01. -/
def recB : Record :=
  { game := "B"
    platforms := some ["PC"]
    tags := some ["RPG"]
    status := some "Abandoned"
    rating := some 7
    lastPlayed := some (secondsOfYmd 2023 6 1)
    hoursPlayedTotal := some 10
    hoursPlayedSingle := some [some 10] }

/-- Record C of the §8 scenario: no rating, 5 hours, tag Indie, platform
Switch, status Playing, last played 2023-03-01. -/
def recC : Record :=
  { game := "C"
    platforms := some ["Switch"]
    tags := some ["Indie"]
    status := some "Playing"
    rating := none
    lastPlayed := some (secondsOfYmd 2023 3 1)
    hoursPlayedTotal := some 5
    hoursPlayedSingle := some [some 5] }

/-- The multi-platform example game of §8.5: platforms PS5 and Steam with
per-platform hours 10 and 5, total 15, tags RPG and Open World. -/
def exGame : Record :=
  { game := "X"
    platforms := some ["PS5", "Steam"]
    tags := some ["RPG", "Open World"]
    status := some "Completed"
    rating := some 8
    lastPlayed := some (secondsOfYmd 2024 2 1)
    hoursPlayedTotal := some 15
    hoursPlayedSingle := some [some 10, some 5] }

/-- A game whose per-platform hours array is shorter than its platforms
array: the second platform's hours read `undefined` and coerce to 0. -/
def exGameShort : Record :=
  { game := "Y"
    platforms := some ["PS5", "Steam"]
    tags := some ["RPG"]
    status := some "Playing"
    rating := some 6
    lastPlayed := some (secondsOfYmd 2024 3 1)
    hoursPlayedTotal := some 10
    hoursPlayedSingle := some [some 10] }

/-- A record with no status field. -/
def noStatusGame : Record :=
  { game := "S"
    platforms := some ["PC"]
    tags := some ["RPG"]
    status := none
    rating := some 8
    lastPlayed := some (secondsOfYmd 2024 1 15)
    hoursPlayedTotal := some 1
    hoursPlayedSingle := some [some 1] }

/-- A record with no tags array. -/
def noTagsGame : Record :=
  { game := "T"
    platforms := some ["PC"]
    tags := none
    status := some "Playing"
    rating := some 5
    lastPlayed := some (secondsOfYmd 2024 1 20)
    hoursPlayedTotal := some 2
    hoursPlayedSingle := some [some 2] }

/-- A record with no platforms array. -/
def noPlatformsGame : Record :=
  { game := "P"
    platforms := none
    tags := some ["RPG"]
    status := some "Playing"
    rating := some 5
    lastPlayed := some (secondsOfYmd 2024 1 21)
    hoursPlayedTotal := some 2
    hoursPlayedSingle := some [some 2] }

/-- A low-rated single-tag record used by the ordering examples. -/
def recLow : Record :=
  { game := "L"
    platforms := some ["PC"]
    tags := some ["Low"]
    status := some "Completed"
    rating := some 2
    lastPlayed := some (secondsOfYmd 2024 4 1)
    hoursPlayedTotal := some 3
    hoursPlayedSingle := some [some 3] }

/-- A high-rated single-tag record used by the ordering examples. -/
def recHigh : Record :=
  { game := "H"
    platforms := some ["PC"]
    tags := some ["High"]
    status := some "Completed"
    rating := some 9
    lastPlayed := some (secondsOfYmd 2024 5 1)
    hoursPlayedTotal := some 4
    hoursPlayedSingle := some [some 4] }

/-- A selection with every checkbox list empty and a date window. -/
def emptySel : Selection :=
  { platforms := []
    tags := []
    statuses := []
    ratingRanges := []
    startDate := secondsOfYmd 2020 1 1
    endDate := secondsOfYmd 2030 1 1 }

/-! ### Helper lemmas -/

theorem sorted_insertionSort_of {α : Type} (r : α → α → Prop) [DecidableRel r]
    (htot : ∀ a b, r a b ∨ r b a) (htrans : ∀ a b c, r a b → r b c → r a c)
    (l : List α) : List.Pairwise r (l.insertionSort r) := by
  haveI : IsTotal α r := ⟨htot⟩
  haveI : IsTrans α r := ⟨fun a b c => htrans a b c⟩
  exact List.sorted_insertionSort r l

theorem recordMatch_eq_ok (sel : Selection) (r : Record) (ps ts : List String)
    (hps : r.platforms = some ps) (hts : r.tags = some ts) :
    recordMatch sel r = .ok (
      (sel.platforms.isEmpty || ps.any (fun p => sel.platforms.contains p)) &&
      ((sel.tags.isEmpty || ts.any (fun t => sel.tags.contains t)) &&
        (statusMatch sel r && (ratingMatch sel r && dateMatch sel r)))) := by
  unfold recordMatch platformMatch tagMatch
  rw [hps, hts]
  by_cases h1 : sel.platforms.isEmpty <;> by_cases h2 : sel.tags.isEmpty <;>
    simp [h1, h2, Bind.bind, Except.bind, Pure.pure, Except.pure, Bool.and_assoc]

theorem recordMatch_ok (sel : Selection) (r : Record)
    (hp : r.platforms ≠ none) (ht : r.tags ≠ none) :
    ∃ b, recordMatch sel r = .ok b := by
  obtain ⟨ps, hps⟩ := Option.ne_none_iff_exists'.mp hp
  obtain ⟨ts, hts⟩ := Option.ne_none_iff_exists'.mp ht
  exact ⟨_, recordMatch_eq_ok sel r ps ts hps hts⟩

theorem recordMatch_error_of_tags (sel : Selection) (r : Record)
    (hsel : sel.tags ≠ []) (hr : r.tags = none) :
    recordMatch sel r = .error () := by
  unfold recordMatch
  rcases hpm : platformMatch sel r with e | b
  · cases e
    simp [Bind.bind, Except.bind, hpm]
  · have htm : tagMatch sel r = .error () := by
      unfold tagMatch
      rw [hr, if_neg]
      simp [List.isEmpty_iff, hsel]
    simp [Bind.bind, Except.bind, hpm, htm]

theorem recordMatch_error_of_platforms (sel : Selection) (r : Record)
    (hsel : sel.platforms ≠ []) (hr : r.platforms = none) :
    recordMatch sel r = .error () := by
  have hpm : platformMatch sel r = .error () := by
    unfold platformMatch
    rw [hr, if_neg]
    simp [List.isEmpty_iff, hsel]
  unfold recordMatch
  simp [Bind.bind, Except.bind, hpm]

/-- C9: a record passes the date facet iff its last-played field parses to a
valid date lying in `[startDate, endDate]` inclusive, the end date extended
to end-of-day 23:59:59 (86399 seconds past midnight); a record with
`lastPlayed = "2024-06-30"` passes for the window 2024-01-01 .. 2024-06-30;
an unparseable last-played date never passes, and the facet is a total
boolean function, so it raises no exception. -/
theorem dateFacet_inclusive_spec :
    (∀ (sel : Selection) (r : Record),
       dateMatch sel r = true ↔
         ∃ t, r.lastPlayed = some t ∧ sel.startDate ≤ t ∧ t ≤ sel.endDate + 86399)
    ∧ (∀ (sel : Selection) (r : Record), r.lastPlayed = none → dateMatch sel r = false)
    ∧ dateMatch
        { emptySel with startDate := secondsOfYmd 2024 1 1,
                        endDate := secondsOfYmd 2024 6 30 }
        { recA with lastPlayed := some (secondsOfYmd 2024 6 30) } = true := by
  refine ⟨?_, ?_, ?_⟩
  · intro sel r
    unfold dateMatch
    cases h : r.lastPlayed with
    | none => simp
    | some t => simp
  · intro sel r h
    unfold dateMatch
    rw [h]
  · unfold dateMatch
    simp only []
    decide

/-- C9 witness: the general characterization applied to the §8.6 example
record and window. -/
theorem dateFacet_inclusive_spec_witness :
    dateMatch
      { emptySel with startDate := secondsOfYmd 2024 1 1,
                      endDate := secondsOfYmd 2024 6 30 }
      { recA with lastPlayed := some (secondsOfYmd 2024 6 30) } = true ∧
    dateMatch emptySel { recA with lastPlayed := none } = false :=
  ⟨dateFacet_inclusive_spec.2.2,
   dateFacet_inclusive_spec.2.1 emptySel { recA with lastPlayed := none } rfl⟩

/-- C1: an empty selected-set imposes no constraint for the platform, tag and
rating-bucket facets (every record passes those facet lines), while an empty
status selection rejects every record: with `selection.statuses` empty the
filtered result is the empty sequence for any dataset of records that carry
their `platforms` and `tags` arrays, regardless of the other facets. -/
theorem emptySelection_facet_semantics :
    (∀ (sel : Selection) (r : Record), sel.platforms = [] → platformMatch sel r = .ok true)
    ∧ (∀ (sel : Selection) (r : Record), sel.tags = [] → tagMatch sel r = .ok true)
    ∧ (∀ (sel : Selection) (r : Record), sel.ratingRanges = [] → ratingMatch sel r = true)
    ∧ (∀ (data : List Record) (sel : Selection), sel.statuses = [] →
        (∀ r ∈ data, r.platforms ≠ none ∧ r.tags ≠ none) →
        getFilteredData data sel = .ok []) := by
  refine ⟨?_, ?_, ?_, ?_⟩
  · intro sel r h; simp [platformMatch, h]
  · intro sel r h; simp [tagMatch, h]
  · intro sel r h; simp [ratingMatch, h]
  · intro data sel hs hwf
    induction data with
    | nil => rfl
    | cons r rest ih =>
      obtain ⟨hp, ht⟩ := hwf r (by simp)
      obtain ⟨ps, hps⟩ := Option.ne_none_iff_exists'.mp hp
      obtain ⟨ts, hts⟩ := Option.ne_none_iff_exists'.mp ht
      have hsm : statusMatch sel r = false := by
        unfold statusMatch
        cases r.status <;> simp [hs]
      have hrest : getFilteredData rest sel = .ok [] :=
        ih (fun r' hr' => hwf r' (List.mem_cons_of_mem _ hr'))
      rw [getFilteredData, recordMatch_eq_ok sel r ps ts hps hts, hsm]
      simp [Bind.bind, Except.bind, Pure.pure, Except.pure, hrest]

/-- C1 witness: with all checkbox lists empty (in particular the statuses),
filtering the two-record §8 dataset returns the empty list. -/
theorem emptySelection_facet_semantics_witness :
    getFilteredData [recA, recC] emptySel = .ok [] ∧
    platformMatch emptySel recC = .ok true :=
  ⟨emptySelection_facet_semantics.2.2.2 [recA, recC] emptySel rfl
      (by
        intro r hr
        simp only [List.mem_cons, List.not_mem_nil, or_false] at hr
        rcases hr with rfl | rfl <;> simp [recA, recC]),
   emptySelection_facet_semantics.1 emptySel recC rfl⟩

/-- C10: if every record carries a `platforms` and a `tags` array, then
getFilteredData never throws for any selection (absent ratings and
unparseable dates merely fail their facets); but a record whose `tags` array
is missing while the tag selection is non-empty (or whose `platforms` array
is missing while the platform selection is non-empty) makes the per-record
predicate dereference `undefined` and the evaluation throw. -/
theorem getFilteredData_totality :
    (∀ (data : List Record) (sel : Selection),
       (∀ r ∈ data, r.platforms ≠ none ∧ r.tags ≠ none) →
       ∃ l, getFilteredData data sel = .ok l)
    ∧ (∀ (sel : Selection) (r : Record), r.rating = none → sel.ratingRanges ≠ [] →
        ratingMatch sel r = false)
    ∧ (∀ (sel : Selection) (r : Record), sel.tags ≠ [] → r.tags = none →
        getFilteredData [r] sel = .error ())
    ∧ (∀ (sel : Selection) (r : Record), sel.platforms ≠ [] → r.platforms = none →
        getFilteredData [r] sel = .error ()) := by
  refine ⟨?_, ?_, ?_, ?_⟩
  · intro data sel hwf
    induction data with
    | nil => exact ⟨[], rfl⟩
    | cons r rest ih =>
      obtain ⟨hp, ht⟩ := hwf r (by simp)
      obtain ⟨b, hb⟩ := recordMatch_ok sel r hp ht
      obtain ⟨l, hl⟩ := ih (fun r' hr' => hwf r' (List.mem_cons_of_mem _ hr'))
      refine ⟨if b then r :: l else l, ?_⟩
      rw [getFilteredData]
      simp [Bind.bind, Except.bind, Pure.pure, Except.pure, hb, hl]
  · intro sel r hr hsel
    unfold ratingMatch getRatingRange
    rw [hr]
    simp [List.isEmpty_iff, hsel]
  · intro sel r hsel hr
    rw [getFilteredData]
    simp [Bind.bind, Except.bind, recordMatch_error_of_tags sel r hsel hr]
  · intro sel r hsel hr
    rw [getFilteredData]
    simp [Bind.bind, Except.bind, recordMatch_error_of_platforms sel r hsel hr]

/-- C10 witness: the totality half applied to a well-formed dataset, and the
throwing half applied to records missing their tags / platforms arrays. -/
theorem getFilteredData_totality_witness :
    (∃ l, getFilteredData [recA, recB, recC] emptySel = .ok l)
    ∧ getFilteredData [noTagsGame] { emptySel with tags := ["RPG"] } = .error ()
    ∧ getFilteredData [noPlatformsGame] { emptySel with platforms := ["PC"] } = .error () :=
  ⟨getFilteredData_totality.1 [recA, recB, recC] emptySel
      (by
        intro r hr
        simp only [List.mem_cons, List.not_mem_nil, or_false] at hr
        rcases hr with rfl | rfl | rfl <;> simp [recA, recB, recC]),
   getFilteredData_totality.2.2.1 { emptySel with tags := ["RPG"] } noTagsGame
      (by simp) rfl,
   getFilteredData_totality.2.2.2 { emptySel with platforms := ["PC"] } noPlatformsGame
      (by simp) rfl⟩

/-- C5 counterexample: a record with an absent status fails the status facet
even though `"Unknown"` is the selected status, and the status catalog built
by populateStatusFilters contains the raw absent value, not the literal
`"Unknown"`. -/
theorem status_unknown_counterexample :
    noStatusGame.status = none ∧
    statusMatch { emptySel with statuses := ["Unknown"] } noStatusGame = false ∧
    populateStatusCatalog [noStatusGame] = [none] := by
  refine ⟨rfl, rfl, ?_⟩
  simp [populateStatusCatalog, noStatusGame]

/-- C5 amended: filter evaluation compares the raw status value against the
selected strings with no normalization — a record passes the status facet iff
its status is present and selected, so an absent status never passes; and the
status catalog is exactly the distinct raw status values of the dataset
(absent statuses catalogued as the raw absent value, not as `"Unknown"`). -/
theorem status_raw_semantics :
    (∀ (sel : Selection) (r : Record),
       statusMatch sel r = true ↔ ∃ s, r.status = some s ∧ s ∈ sel.statuses)
    ∧ (∀ (sel : Selection) (r : Record), r.status = none → statusMatch sel r = false)
    ∧ (∀ (data : List Record) (x : Option String),
        x ∈ populateStatusCatalog data ↔ x ∈ data.map (·.status)) := by
  refine ⟨?_, ?_, ?_⟩
  · intro sel r
    unfold statusMatch
    cases r.status <;> simp
  · intro sel r h
    unfold statusMatch
    rw [h]
  · intro data x
    unfold populateStatusCatalog
    cases x with
    | none =>
      by_cases h : (none : Option String) ∈ (data.map (·.status)).dedup
      · have h' := List.mem_dedup.mp h
        simp [h, h']
      · have h' : (none : Option String) ∉ data.map (·.status) :=
          fun hc => h (List.mem_dedup.mpr hc)
        simp [h, h']
    | some s =>
      simp [(List.perm_insertionSort _ _).mem_iff, List.mem_dedup,
        List.mem_filterMap]

/-- C5 witness: the raw-status characterization applied concretely — a record
whose status is `"Playing"` passes iff `"Playing"` is selected, and the
absent-status rule applied to `noStatusGame`. -/
theorem status_raw_semantics_witness :
    statusMatch { emptySel with statuses := ["Playing"] } recC = true ∧
    statusMatch { emptySel with statuses := ["Playing"] } noStatusGame = false :=
  ⟨(status_raw_semantics.1 { emptySel with statuses := ["Playing"] } recC).mpr
      ⟨"Playing", rfl, by simp⟩,
   status_raw_semantics.2.1 { emptySel with statuses := ["Playing"] } noStatusGame rfl⟩

/-- C6 counterexample: the `topRated` reducer keeps the incumbent only when
its rating is strictly greater under JS comparison, so for the §8 records
`[A, C]` (C unrated: `9.5 > undefined` is false) the result is C, not A; and
for two records with equal ratings the later one wins, not the
first-encountered. -/
theorem topRated_counterexample :
    updateStatsTopRated [recA, recC] = some recC ∧ recC ≠ recA ∧
    updateStatsTopRated [recB, { recB with game := "B2" }] =
      some { recB with game := "B2" } ∧ ({ recB with game := "B2" } : Record) ≠ recB := by
  refine ⟨?_, by decide, ?_, by decide⟩
  · simp [updateStatsTopRated, jsGtRating, recA, recC]
  · simp [updateStatsTopRated, jsGtRating, recB]

/-- C6 amended: `topRated` is absent on an empty input and is otherwise the
result of a left fold that keeps the incumbent only when its rating is
strictly greater than the challenger's (a comparison involving an absent
rating is false, as in JS), so equal ratings and absent-rating comparisons
resolve to the later record; for the §8 scenario `topRated([A, C]) = C`; and
whenever every input record has a rating, the result's rating is maximal. -/
theorem topRated_amended :
    updateStatsTopRated ([] : List Record) = none
    ∧ (∀ a b : Record, a.rating = b.rating → updateStatsTopRated [a, b] = some b)
    ∧ updateStatsTopRated [recA, recC] = some recC
    ∧ (∀ (l : List Record) (res : Record), updateStatsTopRated l = some res →
        (∀ r ∈ l, r.rating.isSome) →
        ∀ r ∈ l, r.rating.getD 0 ≤ res.rating.getD 0) := by
  have key : ∀ (t : List Record) (h : Record), (∀ r ∈ h :: t, r.rating.isSome) →
      ∀ r ∈ h :: t,
        r.rating.getD 0 ≤
          (t.foldl (fun a b => if jsGtRating a b then a else b) h).rating.getD 0 := by
    intro t
    induction t with
    | nil =>
      intro h _ r hr
      simp only [List.mem_singleton] at hr
      subst hr
      simp
    | cons b t' ih =>
      intro h hall r hr
      have hh : h.rating.isSome := hall h (by simp)
      have hb : b.rating.isSome := hall b (by simp)
      obtain ⟨x, hx⟩ := Option.isSome_iff_exists.mp hh
      obtain ⟨y, hy⟩ := Option.isSome_iff_exists.mp hb
      set s := if jsGtRating h b then h else b with hs
      have hs_or : s = h ∨ s = b := by
        rw [hs]; split <;> simp
      have hsr : h.rating.getD 0 ≤ s.rating.getD 0 ∧ b.rating.getD 0 ≤ s.rating.getD 0 := by
        rw [hs]
        unfold jsGtRating
        rw [hx, hy]
        by_cases hxy : x > y
        · simp [hxy, hx, hy, le_of_lt hxy]
        · simp [hxy, hx, hy, le_of_not_lt hxy]
      have hall' : ∀ r' ∈ s :: t', r'.rating.isSome := by
        intro r' hr'
        rcases List.mem_cons.mp hr' with rfl | hmem
        · rcases hs_or with h1 | h1 <;> rw [h1] <;> assumption
        · exact hall r' (by simp [hmem])
      have hfold :
          (b :: t').foldl (fun a b => if jsGtRating a b then a else b) h =
            t'.foldl (fun a b => if jsGtRating a b then a else b) s := by
        simp [List.foldl_cons, hs]
      rw [hfold]
      have hs_le := ih s hall' s (by simp)
      rcases List.mem_cons.mp hr with rfl | hmem
      · exact le_trans hsr.1 hs_le
      · rcases List.mem_cons.mp hmem with rfl | hmem'
        · exact le_trans hsr.2 hs_le
        · exact ih s hall' r (by simp [hmem'])
  refine ⟨rfl, ?_, ?_, ?_⟩
  · intro a b h
    have hgt : jsGtRating a b = false := by
      unfold jsGtRating
      rw [h]
      cases b.rating with
      | none => rfl
      | some x => simp
    simp [updateStatsTopRated, hgt]
  · simp [updateStatsTopRated, jsGtRating, recA, recC]
  · intro l res hres hall r hr
    cases l with
    | nil => simp [updateStatsTopRated] at hres
    | cons h t =>
      have : res = t.foldl (fun a b => if jsGtRating a b then a else b) h := by
        simpa [updateStatsTopRated] using hres.symm
      rw [this]
      exact key t h hall r hr

/-- C6 witness: the tie rule and the maximality rule applied to concrete
records. -/
theorem topRated_amended_witness :
    updateStatsTopRated [recB, recB] = some recB ∧
    recB.rating.getD 0 ≤ recB.rating.getD 0 :=
  ⟨topRated_amended.2.1 recB recB rfl,
   topRated_amended.2.2.2 [recB] recB rfl
     (by intro r hr; simp only [List.mem_singleton] at hr; subst hr; rfl)
     recB (by simp)⟩

/-- C7 (code bug): the summary's mean-rating computation degrades to 0 on an
empty input, but on a non-empty input with no rated record `d3.mean` returns
`undefined` and the `.toFixed(1)` call throws a TypeError instead of
degrading; shown at the §8 record C (no rating). -/
theorem updateStatsAvgRating_throws :
    updateStatsAvgRating [recC] = .error () ∧
    recC.rating = none ∧
    updateStatsAvgRating ([] : List Record) = .ok 0 ∧
    updateStatsTotalHours ([] : List Record) = 0 := by
  refine ⟨?_, rfl, rfl, rfl⟩
  simp [updateStatsAvgRating, d3Mean, recC]

theorem bucketTotal_nil (c : String) : bucketTotal [] c = 0 := rfl

theorem bucketTotal_cons (b : AggregationBucket) (rest : List AggregationBucket)
    (c : String) :
    bucketTotal (b :: rest) c =
      if b.category = c then b.totalHours else bucketTotal rest c := by
  unfold bucketTotal
  by_cases h : b.category = c <;> simp [List.find?, h]

theorem bucketCount_nil (c : String) : bucketCount [] c = 0 := rfl

theorem bucketCount_cons (b : AggregationBucket) (rest : List AggregationBucket)
    (c : String) :
    bucketCount (b :: rest) c =
      if b.category = c then b.gameCount else bucketCount rest c := by
  unfold bucketCount
  by_cases h : b.category = c <;> simp [List.find?, h]

theorem bucketTotal_bump (m : List AggregationBucket) (c c' : String) (h : ℚ) :
    bucketTotal (bump m c h) c' = bucketTotal m c' + (if c' = c then h else 0) := by
  induction m with
  | nil =>
    rcases eq_or_ne c c' with rfl | hc
    · simp [bump, bucketTotal_cons, bucketTotal_nil]
    · simp [bump, bucketTotal_cons, bucketTotal_nil, hc, hc.symm]
  | cons b rest ih =>
    by_cases hb : b.category = c
    · simp only [bump, if_pos hb]
      rw [bucketTotal_cons, bucketTotal_cons]
      by_cases hbc : b.category = c'
      · have hcc : c' = c := hbc ▸ hb
        simp [hbc, hcc]
      · have hcc : c' ≠ c := fun hh => hbc (hh ▸ hb)
        simp [hbc, hcc]
    · simp only [bump, if_neg hb]
      rw [bucketTotal_cons, bucketTotal_cons]
      by_cases hbc : b.category = c'
      · have hcc : c' ≠ c := fun hh => hb (by rw [hbc, hh])
        simp [hbc, hcc]
      · simp [hbc, ih]

theorem bucketCount_bump (m : List AggregationBucket) (c c' : String) (h : ℚ) :
    bucketCount (bump m c h) c' = bucketCount m c' + (if c' = c then 1 else 0) := by
  induction m with
  | nil =>
    rcases eq_or_ne c c' with rfl | hc
    · simp [bump, bucketCount_cons, bucketCount_nil]
    · simp [bump, bucketCount_cons, bucketCount_nil, hc, hc.symm]
  | cons b rest ih =>
    by_cases hb : b.category = c
    · simp only [bump, if_pos hb]
      rw [bucketCount_cons, bucketCount_cons]
      by_cases hbc : b.category = c'
      · have hcc : c' = c := hbc ▸ hb
        simp [hbc, hcc]
      · have hcc : c' ≠ c := fun hh => hbc (hh ▸ hb)
        simp [hbc, hcc]
    · simp only [bump, if_neg hb]
      rw [bucketCount_cons, bucketCount_cons]
      by_cases hbc : b.category = c'
      · have hcc : c' ≠ c := fun hh => hb (by rw [hbc, hh])
        simp [hbc, hcc]
      · simp [hbc, ih]

theorem bucketTotal_foldl_bump (pairs : List (String × ℚ))
    (m : List AggregationBucket) (c : String) :
    bucketTotal (pairs.foldl (fun m p => bump m p.1 p.2) m) c =
      bucketTotal m c + ((pairs.filter (fun p => decide (p.1 = c))).map (·.2)).sum := by
  induction pairs generalizing m with
  | nil => simp
  | cons p ps ih =>
    rw [List.foldl_cons, ih, bucketTotal_bump]
    by_cases hc : p.1 = c
    · simp [List.filter_cons, hc]
      ring
    · have hcc : ¬(c = p.1) := fun hh => hc hh.symm
      simp [List.filter_cons, hc, hcc]

theorem bucketCount_foldl_bump (pairs : List (String × ℚ))
    (m : List AggregationBucket) (c : String) :
    bucketCount (pairs.foldl (fun m p => bump m p.1 p.2) m) c =
      bucketCount m c + pairs.countP (fun p => decide (p.1 = c)) := by
  induction pairs generalizing m with
  | nil => simp
  | cons p ps ih =>
    rw [List.foldl_cons, ih, bucketCount_bump]
    by_cases hc : p.1 = c
    · simp [List.countP_cons, hc]
      omega
    · have hcc : ¬(c = p.1) := fun hh => hc hh.symm
      simp [List.countP_cons, hc, hcc]

theorem aggMap_bucketTotal (data : List Record) (ty : AggregationType) (c : String) :
    bucketTotal (aggMap data ty) c = categoryHoursSum data ty c := by
  suffices h : ∀ (m : List AggregationBucket),
      bucketTotal
        (data.foldl (fun acc g => (contributions ty g).foldl (fun m p => bump m p.1 p.2) acc) m) c
        = bucketTotal m c + categoryHoursSum data ty c by
    simpa [aggMap, bucketTotal_nil] using h []
  induction data with
  | nil => intro m; simp [categoryHoursSum]
  | cons g gs ih =>
    intro m
    rw [List.foldl_cons, ih, bucketTotal_foldl_bump]
    simp only [categoryHoursSum, categoryHours, List.map_cons, List.sum_cons]
    ring

theorem aggMap_bucketCount (data : List Record) (ty : AggregationType) (c : String) :
    bucketCount (aggMap data ty) c = categoryOccSum data ty c := by
  suffices h : ∀ (m : List AggregationBucket),
      bucketCount
        (data.foldl (fun acc g => (contributions ty g).foldl (fun m p => bump m p.1 p.2) acc) m) c
        = bucketCount m c + categoryOccSum data ty c by
    simpa [aggMap, bucketCount_nil] using h []
  induction data with
  | nil => intro m; simp [categoryOccSum]
  | cons g gs ih =>
    intro m
    rw [List.foldl_cons, ih, bucketCount_foldl_bump]
    simp only [categoryOccSum, categoryOcc, List.map_cons, List.sum_cons]
    omega

/-- C2: aggregating by platform, each record adds, for each of its platforms,
the parallel per-platform hour value (coerced to number, defaulting to 0 when
missing or unparseable) to that platform's bucket and increments that
bucket's game count by one per platform occurrence; aggregating by tag, a
record contributes its full `hoursPlayedTotal` to every tag bucket it belongs
to.  The general halves say every bucket's `totalHours`/`gameCount` equal the
summed per-record contributions; the concrete halves pin the §8.5 example
game (platforms PS5/Steam, per-platform hours 10/5, total 15) and a game
whose second per-platform entry is missing (defaults to 0). -/
theorem aggregation_contribution_spec :
    (∀ (data : List Record) (ty : AggregationType) (c : String),
       bucketTotal (aggMap data ty) c = categoryHoursSum data ty c
       ∧ bucketCount (aggMap data ty) c = categoryOccSum data ty c)
    ∧ contributions .platform exGame = [("PS5", 10), ("Steam", 5)]
    ∧ aggregatePlaytimeData [exGame] .platform = [⟨"PS5", 10, 1⟩, ⟨"Steam", 5, 1⟩]
    ∧ contributions .platform exGameShort = [("PS5", 10), ("Steam", 0)]
    ∧ contributions .tag exGame = [("RPG", 15), ("Open World", 15)]
    ∧ aggregatePlaytimeData [exGame] .tag = [⟨"RPG", 15, 1⟩, ⟨"Open World", 15, 1⟩] := by
  refine ⟨fun data ty c => ⟨aggMap_bucketTotal data ty c, aggMap_bucketCount data ty c⟩,
    ?_, ?_, ?_, ?_, ?_⟩
  · simp [contributions, exGame, List.enum, List.enumFrom]
  · simp [aggregatePlaytimeData, aggMap, contributions, bump, exGame,
      List.enum, List.enumFrom]
  · simp [contributions, exGameShort, List.enum, List.enumFrom]
  · simp [contributions, exGame]
  · simp [aggregatePlaytimeData, aggMap, contributions, bump, exGame]

/-- C4 counterexample: a record with no rating is not excluded from the
rating-bucket aggregation — it contributes its full hours to a
`'No Rating'` bucket (here the unrated 5-hour record C produces exactly that
bucket, where the claim requires it to contribute to no bucket at all). -/
theorem noRating_bucket_counterexample :
    aggregatePlaytimeData [recC] .rating = [⟨"No Rating", 5, 1⟩] ∧
    recC.rating = none := by
  refine ⟨?_, rfl⟩
  simp [aggregatePlaytimeData, aggMap, contributions, bump, getRatingRangeAgg, recC]

/-- C4 amended: every record contributes to exactly one rating bucket; a
record with no rating contributes its full hours to the `'No Rating'` bucket
(it is not excluded); and the buckets are displayed in the fixed order
9-10, 8-9, 7-8, 6-7, 5-6, &lt;5, No Rating — a stable sort by position in
that category order, shown both in general and on a concrete out-of-order
dataset. -/
theorem ratingAggregation_amended :
    (∀ g : Record, (contributions .rating g).length = 1)
    ∧ (∀ g : Record, g.rating = none →
        contributions .rating g = [("No Rating", g.hoursPlayedTotal.getD 0)])
    ∧ (∀ data : List Record,
        List.Pairwise (fun a b : AggregationBucket =>
          ratingOrderIndex a.category ≤ ratingOrderIndex b.category)
          (renderAggregationOrder data .rating))
    ∧ renderAggregationOrder [recB, recC, recA] .rating =
        [⟨"9-10", 50, 1⟩, ⟨"7-8", 10, 1⟩, ⟨"No Rating", 5, 1⟩] := by
  refine ⟨?_, ?_, ?_, ?_⟩
  · intro g; rfl
  · intro g hg
    simp [contributions, getRatingRangeAgg, hg]
  · intro data
    have hdef : renderAggregationOrder data .rating =
        (aggregatePlaytimeData data .rating).insertionSort
          (fun a b => ratingOrderIndex a.category ≤ ratingOrderIndex b.category) := rfl
    rw [hdef]
    exact sorted_insertionSort_of
      (fun a b : AggregationBucket =>
        ratingOrderIndex a.category ≤ ratingOrderIndex b.category)
      (fun a b => Nat.le_total _ _)
      (fun a b c h1 h2 => Nat.le_trans h1 h2)
      (aggregatePlaytimeData data .rating)
  · simp only [renderAggregationOrder, aggregatePlaytimeData, aggMap, contributions,
      getRatingRangeAgg, recA, recB, recC, sortAggregatedData]
    norm_num [bump, List.insertionSort, List.orderedInsert, ratingOrderIndex, ratingOrder]
    decide

/-- C4 witness: the absent-rating rule applied to the concrete unrated
record C. -/
theorem ratingAggregation_amended_witness :
    contributions .rating recC = [("No Rating", 5)] := by
  have h := ratingAggregation_amended.2.1 recC rfl
  simpa [recC] using h

theorem min?_perm_rat {l1 l2 : List ℚ} (h : l1.Perm l2) : l1.min? = l2.min? := by
  haveI : Std.Antisymm ((· : ℚ) ≤ ·) := ⟨fun h1 h2 => le_antisymm h1 h2⟩
  cases h1 : l1.min? with
  | none =>
    rw [List.min?_eq_none_iff] at h1
    subst h1
    rw [List.nil_perm] at h
    simp [h]
  | some a =>
    rw [List.min?_eq_some_iff (fun a => le_refl a) (fun a b => min_choice a b)
      (fun a b c => le_min_iff)] at h1
    symm
    rw [List.min?_eq_some_iff (fun a => le_refl a) (fun a b => min_choice a b)
      (fun a b c => le_min_iff)]
    exact ⟨h.mem_iff.mp h1.1, fun b hb => h1.2 b (h.mem_iff.mpr hb)⟩

theorem max?_perm_rat {l1 l2 : List ℚ} (h : l1.Perm l2) : l1.max? = l2.max? := by
  haveI : Std.Antisymm ((· : ℚ) ≤ ·) := ⟨fun h1 h2 => le_antisymm h1 h2⟩
  cases h1 : l1.max? with
  | none =>
    rw [List.max?_eq_none_iff] at h1
    subst h1
    rw [List.nil_perm] at h
    simp [h]
  | some a =>
    rw [List.max?_eq_some_iff (fun a => le_refl a) (fun a b => max_choice a b)
      (fun a b c => max_le_iff)] at h1
    symm
    rw [List.max?_eq_some_iff (fun a => le_refl a) (fun a b => max_choice a b)
      (fun a b c => max_le_iff)]
    exact ⟨h.mem_iff.mp h1.1, fun b hb => h1.2 b (h.mem_iff.mpr hb)⟩

theorem quantileSorted_eq_r7 (l : List ℚ) (hl : l ≠ []) (p : ℚ)
    (hp0 : 0 < p) (hp1 : p < 1) :
    (quantileSorted l p).getD 0 = r7quantile l p := by
  match l, hl with
  | x :: xs, _ =>
    cases xs with
    | nil =>
      have h1 : quantileSorted [x] p = some x := by
        simp only [quantileSorted]
        rw [if_pos (Or.inr (by norm_num))]
      rw [h1]
      simp only [r7quantile, List.length_cons, List.length_nil]
      norm_num
    | cons y ys =>
      have hn2 : 2 ≤ (x :: y :: ys).length := by simp
      have hnq : (2 : ℚ) ≤ ((x :: y :: ys).length : ℚ) := by exact_mod_cast hn2
      have h0 : 0 ≤ (((x :: y :: ys).length : ℚ) - 1) * p :=
        mul_nonneg (by linarith) hp0.le
      have hlt : (((x :: y :: ys).length : ℚ) - 1) * p < ((x :: y :: ys).length : ℚ) - 1 := by
        have := mul_lt_mul_of_pos_left hp1 (show (0:ℚ) < ((x :: y :: ys).length : ℚ) - 1 by linarith)
        linarith
      have hfl0 : 0 ≤ ⌊(((x :: y :: ys).length : ℚ) - 1) * p⌋ := Int.floor_nonneg.mpr h0
      have hfl : ⌊(((x :: y :: ys).length : ℚ) - 1) * p⌋ < ((x :: y :: ys).length : ℤ) - 1 := by
        apply Int.floor_lt.mpr
        push_cast
        exact hlt
      have hi0le : (⌊(((x :: y :: ys).length : ℚ) - 1) * p⌋).toNat + 1 ≤
          (x :: y :: ys).length - 1 := by omega
      simp only [quantileSorted, r7quantile]
      rw [if_neg (by push_neg; exact ⟨hp0, hn2⟩), if_neg (not_le.mpr hp1)]
      rw [Option.getD_some, Nat.min_eq_left hi0le]

/-- C3: for every non-empty list of rating values, the boxplot statistics are
the R-7 linear-interpolation quantiles of the ascending-sorted values (for
`[6, 7, 7, 8, 9]`: q1 = 7, median = 7, q3 = 8), the whiskers are
`max(min(values), q1 - 1.5*iqr)` and `min(max(values), q3 + 1.5*iqr)`, and
the outliers are exactly the values strictly outside
`[lowWhisker, highWhisker]`. -/
theorem calculateBoxplotStats_spec :
    (∀ values : List ℚ, values ≠ [] →
      ∃ s, calculateBoxplotStats values = some s
        ∧ s.q1 = r7quantile (jsSortAsc values) (1/4)
        ∧ s.median = r7quantile (jsSortAsc values) (1/2)
        ∧ s.q3 = r7quantile (jsSortAsc values) (3/4)
        ∧ s.min = Max.max ((values.min?).getD 0) (s.q1 - 3/2 * (s.q3 - s.q1))
        ∧ s.max = Min.min ((values.max?).getD 0) (s.q3 + 3/2 * (s.q3 - s.q1))
        ∧ (∀ x, x ∈ s.outliers ↔ x ∈ values ∧ (x < s.min ∨ x > s.max)))
    ∧ calculateBoxplotStats [6, 7, 7, 8, 9] =
        some ⟨7, 7, 8, 6, 9, [], 37/5, 5⟩ := by
  constructor
  · intro values hv
    obtain ⟨v, vs, rfl⟩ : ∃ v vs, values = v :: vs := by
      cases values with
      | nil => exact absurd rfl hv
      | cons a l => exact ⟨a, l, rfl⟩
    have hperm : (jsSortAsc (v :: vs)).Perm (v :: vs) := List.perm_insertionSort _ _
    have hsne : jsSortAsc (v :: vs) ≠ [] := by
      intro hemp
      have hlen := hperm.length_eq
      rw [hemp] at hlen
      simp at hlen
    refine ⟨_, rfl, ?_, ?_, ?_, ?_, ?_, ?_⟩
    · show (quantileSorted (jsSortAsc (v :: vs)) (1/4)).getD 0 = _
      exact quantileSorted_eq_r7 _ hsne _ (by norm_num) (by norm_num)
    · show (quantileSorted (jsSortAsc (v :: vs)) (1/2)).getD 0 = _
      exact quantileSorted_eq_r7 _ hsne _ (by norm_num) (by norm_num)
    · show (quantileSorted (jsSortAsc (v :: vs)) (3/4)).getD 0 = _
      exact quantileSorted_eq_r7 _ hsne _ (by norm_num) (by norm_num)
    · show Max.max ((d3Min (jsSortAsc (v :: vs))).getD 0) _ = _
      rw [show d3Min (jsSortAsc (v :: vs)) = (v :: vs).min? from min?_perm_rat hperm]
    · show Min.min ((d3Max (jsSortAsc (v :: vs))).getD 0) _ = _
      rw [show d3Max (jsSortAsc (v :: vs)) = (v :: vs).max? from max?_perm_rat hperm]
    · intro x
      show x ∈ (jsSortAsc (v :: vs)).filter _ ↔ _
      rw [List.mem_filter]
      simp [hperm.mem_iff]
  · norm_num [calculateBoxplotStats, jsSortAsc, List.insertionSort, List.orderedInsert,
      quantileSorted, d3Min, d3Max, d3Mean, List.min?_cons', List.max?_cons',
      min_def, max_def]
    simp
    norm_num

/-- C3 witness: the general statement instantiated at the non-empty example
list `[6, 7, 7, 8, 9]`. -/
theorem calculateBoxplotStats_spec_witness :
    ∃ s, calculateBoxplotStats [6, 7, 7, 8, 9] = some s
      ∧ s.q1 = r7quantile (jsSortAsc [6, 7, 7, 8, 9]) (1/4) := by
  obtain ⟨s, h1, h2, -⟩ :=
    calculateBoxplotStats_spec.1 [6, 7, 7, 8, 9] (by simp)
  exact ⟨s, h1, h2⟩

theorem tagStatsEntry_eq (filtered : List Record) (t : String) :
    tagStatsEntry filtered t =
      if ((filtered.filter (fun d => (d.tags.getD []).contains t)).map (·.rating)).isEmpty
      then none
      else some ⟨t, (filtered.filter (fun d => (d.tags.getD []).contains t)).map (·.rating),
        ((filtered.filter (fun d => (d.tags.getD []).contains t)).map (·.rating)).length,
        d3Mean ((filtered.filter (fun d => (d.tags.getD []).contains t)).map (·.rating))⟩ := rfl

theorem tagStatsEntry_none_iff (filtered : List Record) (t : String) :
    tagStatsEntry filtered t = none ↔ ¬∃ r ∈ filtered, t ∈ r.tags.getD [] := by
  have hiff :
      ((((filtered.filter (fun d => (d.tags.getD []).contains t)).map (·.rating)).isEmpty = true)
        ↔ ¬∃ r ∈ filtered, t ∈ r.tags.getD []) := by
    simp [List.isEmpty_iff, List.filter_eq_nil_iff]
  rw [tagStatsEntry_eq]
  by_cases hemp :
      (((filtered.filter (fun d => (d.tags.getD []).contains t)).map (·.rating)).isEmpty = true)
  · rw [if_pos hemp]
    simp only [eq_self_iff_true, true_iff]
    exact hiff.mp hemp
  · rw [if_neg hemp]
    constructor
    · intro hc
      exact absurd hc (by simp)
    · intro hc
      exact absurd (hiff.mpr hc) hemp

theorem tagStatsEntry_some_tag (filtered : List Record) (t : String)
    (e : TagBoxplotEntry) (h : tagStatsEntry filtered t = some e) : e.tag = t := by
  rw [tagStatsEntry_eq] at h
  split at h
  · simp at h
  · rw [Option.some.injEq] at h
    rw [← h]

theorem tagStatsEntry_isSome (filtered : List Record) (t : String)
    (h : ∃ r ∈ filtered, t ∈ r.tags.getD []) :
    ∃ e, tagStatsEntry filtered t = some e ∧ e.tag = t := by
  cases he : tagStatsEntry filtered t with
  | none => exact absurd ((tagStatsEntry_none_iff filtered t).mp he) (not_not.mpr h)
  | some e => exact ⟨e, rfl, tagStatsEntry_some_tag filtered t e he⟩

/-- C8 counterexample: a selected tag whose only matching filtered record has
no rating is still given an entry (the unrated record C matches the tag
Indie, `stats.count = 1 >= 1`, so the entry is kept), whereas the claim
requires such a tag to be excluded for lack of a matching record with a
rating. -/
theorem boxplot_unrated_tag_counterexample :
    renderBoxplotEntries [recC] ["Indie"] = [⟨"Indie", [none], 1, none⟩] ∧
    recC.rating = none := by
  refine ⟨?_, rfl⟩
  simp [renderBoxplotEntries, tagStatsEntry, d3Mean, recC,
    List.insertionSort, List.orderedInsert]

/-- C8 amended: the per-tag boxplot list contains exactly one entry per
selected tag that has at least one matching filtered record — rated or not
(absent ratings count toward `stats.count`, so a tag whose matches are all
unrated is kept too); when every kept entry has a defined mean (the JS
comparator is NaN otherwise), the entries are ordered descending by the
tag's mean over present ratings. -/
theorem boxplot_entries_amended :
    (∀ (filtered : List Record) (tags : List String) (t : String),
       (∃ e ∈ renderBoxplotEntries filtered tags, e.tag = t) ↔
         (t ∈ tags ∧ ∃ r ∈ filtered, t ∈ r.tags.getD []))
    ∧ (∀ (filtered : List Record) (tags : List String),
        (renderBoxplotEntries filtered tags).length =
          (tags.filter (fun t => filtered.any (fun r => (r.tags.getD []).contains t))).length)
    ∧ (∀ (filtered : List Record) (tags : List String),
        (∀ e ∈ renderBoxplotEntries filtered tags, e.mean.isSome) →
        List.Pairwise (fun a b : TagBoxplotEntry => b.mean.getD 0 ≤ a.mean.getD 0)
          (renderBoxplotEntries filtered tags))
    ∧ renderBoxplotEntries [recLow, recHigh] ["Low", "High"] =
        [⟨"High", [some 9], 1, some 9⟩, ⟨"Low", [some 2], 1, some 2⟩] := by
  refine ⟨?_, ?_, ?_, ?_⟩
  · intro filtered tags t
    constructor
    · rintro ⟨e, he, htag⟩
      rw [renderBoxplotEntries, (List.perm_insertionSort _ _).mem_iff,
        List.mem_filterMap] at he
      obtain ⟨a, ha, hfa⟩ := he
      have hat : e.tag = a := tagStatsEntry_some_tag filtered a e hfa
      have hta : t = a := by rw [← htag, hat]
      subst hta
      refine ⟨ha, ?_⟩
      by_contra hno
      rw [(tagStatsEntry_none_iff filtered t).mpr hno] at hfa
      exact absurd hfa (by simp)
    · rintro ⟨hta, hex⟩
      obtain ⟨e, he, htag⟩ := tagStatsEntry_isSome filtered t hex
      refine ⟨e, ?_, htag⟩
      rw [renderBoxplotEntries, (List.perm_insertionSort _ _).mem_iff,
        List.mem_filterMap]
      exact ⟨t, hta, he⟩
  · intro filtered tags
    rw [renderBoxplotEntries, (List.perm_insertionSort _ _).length_eq]
    induction tags with
    | nil => rfl
    | cons t ts ih =>
      by_cases hp : ∃ r ∈ filtered, t ∈ r.tags.getD []
      · obtain ⟨e, he, -⟩ := tagStatsEntry_isSome filtered t hp
        have hpb : filtered.any (fun r => (r.tags.getD []).contains t) = true := by
          obtain ⟨r, hr, hm⟩ := hp
          simp only [List.any_eq_true]
          exact ⟨r, hr, by simpa using hm⟩
        simp [List.filterMap_cons, he, List.filter_cons, hpb, ih]
        rw [if_pos hp]
        simp
      · have he : tagStatsEntry filtered t = none :=
          (tagStatsEntry_none_iff filtered t).mpr hp
        have hpb : filtered.any (fun r => (r.tags.getD []).contains t) = false := by
          rw [List.any_eq_false]
          intro r hr
          intro hc
          exact hp ⟨r, hr, by simpa using hc⟩
        simp [List.filterMap_cons, he, List.filter_cons, hpb, ih]
        rw [if_neg hp]
  · intro filtered tags _
    exact sorted_insertionSort_of
      (fun a b : TagBoxplotEntry => b.mean.getD 0 ≤ a.mean.getD 0)
      (fun a b => le_total _ _)
      (fun a b c h1 h2 => le_trans h2 h1)
      (tags.filterMap (tagStatsEntry filtered))
  · simp [renderBoxplotEntries, tagStatsEntry, d3Mean, recLow, recHigh,
      List.insertionSort, List.orderedInsert]
    norm_num

/-- C8 witness: the inclusion rule and the descending-by-mean order applied
to a concrete two-tag dataset. -/
theorem boxplot_entries_amended_witness :
    (∃ e ∈ renderBoxplotEntries [recLow, recHigh] ["Low", "High"], e.tag = "High") ∧
    List.Pairwise (fun a b : TagBoxplotEntry => b.mean.getD 0 ≤ a.mean.getD 0)
      (renderBoxplotEntries [recLow, recHigh] ["Low", "High"]) :=
  ⟨(boxplot_entries_amended.1 [recLow, recHigh] ["Low", "High"] "High").mpr
      ⟨by simp, recHigh, by simp, by simp [recHigh]⟩,
   boxplot_entries_amended.2.2.1 [recLow, recHigh] ["Low", "High"]
      (by
        intro e he
        rw [boxplot_entries_amended.2.2.2] at he
        simp only [List.mem_cons, List.not_mem_nil, or_false] at he
        rcases he with rfl | rfl <;> rfl)⟩
